import Mathlib

/-!
Verification of the car image gallery subsystem of the Auto-world backend
(src/cars/models.py, src/cars/views.py, src/cars/serializers.py).

All gallery operations are per-car, so one `GalleryState` models the
`CarImage` table restricted to a single car, together with the blob store
and the id / timestamp sequences the record store assigns.  Each HTTP
view is embedded as a function from a state (plus the request data) to
the successor state and an optional error; Django/DB behaviour that the
source relies on (the `unique_together` constraint, `transaction.atomic`
commit-on-normal-exit / rollback-on-exception, files written to storage
surviving a DB rollback) is embedded explicitly where the source
triggers it.
-/

/-- One row of the `CarImage` table (models.py 225-240).  `blob` is the
opaque reference to the stored file (the `image` field); `uploadedAt` is
the `auto_now_add` timestamp, modelled as a sequence number. -/
structure Image where
  id : Nat
  blob : Nat
  isPrimary : Bool
  order : Nat
  uploadedAt : Nat
deriving DecidableEq, Repr

/-- The gallery-relevant store state: the car's image rows in insertion
order, the primary-key and timestamp sequences, and the blob store. -/
structure GalleryState where
  images : List Image
  nextId : Nat
  nextTime : Nat
  blobs : List Nat
deriving DecidableEq, Repr

/-- Error outcomes of the gallery endpoints.  `capacityExceeded` is the
single-upload 400 ("Maximum 10 images allowed per car");
`bulkCapacityExceeded` is the bulk-upload 400, whose message names the
batch size and the current count; `noFile` / `invalidPayload` are the
payload-shape 400s; `integrityError` is the database rejecting a write
that violates `unique_together = ['car', 'order']`; `valueError` is the
capacity ValueError raised inside CarImage.save; `storeFailure` is an
unexpected store failure during an UPDATE. -/
inductive GalleryError where
  | capacityExceeded
  | bulkCapacityExceeded (requested existing : Nat)
  | noFile
  | invalidPayload
  | notFound (id : Nat)
  | integrityError
  | valueError (existing : Nat)
  | storeFailure
deriving DecidableEq, Repr

/-- Rank of the `-is_primary` component of the default ordering
(models.py 239): primary rows sort first. -/
def Image.primRank (i : Image) : Nat :=
  if i.isPrimary then 0 else 1

/-- Strict comparison under `Meta.ordering = ['-is_primary', 'order',
'uploaded_at']`. -/
def Image.keyLt (a b : Image) : Bool :=
  if a.primRank ≠ b.primRank then decide (a.primRank < b.primRank)
  else if a.order ≠ b.order then decide (a.order < b.order)
  else decide (a.uploadedAt < b.uploadedAt)

/-- One step of scanning for the minimum row under the default
ordering. -/
def firstStep (acc : Option Image) (i : Image) : Option Image :=
  match acc with
  | none => some i
  | some j => if Image.keyLt i j then some i else some j

/-- `queryset.first()` under the default Meta ordering: the minimum row
under `Image.keyLt`, ties resolved to the earlier row. -/
def firstByDefault (l : List Image) : Option Image :=
  l.foldl firstStep none

/-- The queryset update `filter(is_primary=True).update(is_primary=False)`
restricted to the car (views.py 394-397); writing the flag to `false`
on every row is extensionally the same as writing it only on the rows
where it is `true`. -/
def clearAll (l : List Image) : List Image :=
  l.map (fun i => { i with isPrimary := false })

/-- The queryset update
`filter(car, is_primary=True).exclude(pk=keep).update(is_primary=False)`
(models.py 252-256). -/
def clearOthers (l : List Image) (keep : Nat) : List Image :=
  l.map (fun i => if i.id == keep then i else { i with isPrimary := false })

/-- The SQL UPDATE of one row, identified by primary key: every field of
the row is overwritten with the saved object's in-memory state. -/
def updateRow (l : List Image) (img : Image) : List Image :=
  l.map (fun i => if i.id == img.id then img else i)

/-- Whether writing `ord` into the row `selfId` violates the
`unique_together = ['car', 'order']` constraint (models.py 240): some
other row of the car already holds that order value. -/
def orderTaken (l : List Image) (selfId ord : Nat) : Bool :=
  l.any (fun i => i.id != selfId && i.order == ord)

/-- CarImage.save (models.py 245-264) on a record with no primary key,
followed by the INSERT.  Mirrors the source order: first-image forcing,
then the primary-clearing UPDATE on the siblings (`exclude(pk=self.pk)`
excludes nothing for an unsaved row, so it clears every primary row),
then the capacity ValueError, then the INSERT — which writes the file to
storage and is rejected with an IntegrityError when the order value
collides with an existing row of the car. -/
def CarImage.saveNew (s : GalleryState) (isPrimaryReq : Bool) (orderReq : Nat)
    (blob : Nat) : GalleryState × Option GalleryError :=
  let first := s.images.isEmpty
  let isP := if first then true else isPrimaryReq
  let ord := if first then 1 else orderReq
  let images1 := if isP then clearAll s.images else s.images
  if 10 ≤ s.images.length then
    ({ s with images := images1 }, some (.valueError s.images.length))
  else if images1.any (fun i => i.order == ord) then
    ({ s with images := images1, blobs := s.blobs ++ [blob] }, some .integrityError)
  else
    ({ images := images1 ++ [⟨s.nextId, blob, isP, ord, s.nextTime⟩],
       nextId := s.nextId + 1, nextTime := s.nextTime + 1,
       blobs := s.blobs ++ [blob] }, none)

/-- CarImage.save on a record that already has a primary key (the UPDATE
path): no first-image forcing and no capacity check; the clearing UPDATE
excludes the row itself; then the row UPDATE, rejected by the
`unique_together` constraint on an order collision.  `saveOk = false`
models the backing store failing the final UPDATE (the clearing UPDATE
has already run; outside a transaction it persists). -/
def CarImage.saveUpdateRest (images1 : List Image) (img : Image) (saveOk : Bool) :
    List Image × Option GalleryError :=
  if !saveOk then
    (images1, some .storeFailure)
  else if orderTaken images1 img.id img.order then
    (images1, some .integrityError)
  else
    (updateRow images1 img, none)

def CarImage.saveUpdate (images : List Image) (img : Image) (saveOk : Bool) :
    List Image × Option GalleryError :=
  CarImage.saveUpdateRest
    (if img.isPrimary then clearOthers images img.id else images) img saveOk

/-- CarImage.delete (models.py 266-274): when the deleted row is primary,
promote `car.images.exclude(pk=self.pk).first()` — the first remaining
sibling under the default ordering — by saving it with
`is_primary = true` (that save's clearing UPDATE also clears the row
about to be deleted), then DELETE the row.  Django does not remove the
file from storage when a model instance is deleted.  If the promoting
save raises, the DELETE is never reached. -/
def CarImage.delete (images : List Image) (img : Image) :
    List Image × Option GalleryError :=
  if img.isPrimary then
    match firstByDefault (images.filter (fun i => i.id != img.id)) with
    | some n =>
      match CarImage.saveUpdate images { n with isPrimary := true } true with
      | (images', none) => (images'.filter (fun i => i.id != img.id), none)
      | (images', some e) => (images', some e)
    | none => (images.filter (fun i => i.id != img.id), none)
  else
    (images.filter (fun i => i.id != img.id), none)

/-- ImageUploadSerializer.validate (serializers.py 229-236): accepts the
payload unless the file's size exceeds 5 MB.  No upload view
instantiates this serializer. -/
def ImageUploadSerializer.validate (size : Nat) : Bool :=
  !(decide (5 * 1024 * 1024 < size))

/-- CarImageUploadView.post (views.py 264-296).  `hasFile` models
`request.FILES.get('image')` being present; `size` is the uploaded
file's byte size (never consulted by this view); `orderReq` the optional
'order' form field; `primaryReq` a caller-supplied primary flag (never
read by the view); `blob` the reference the storage assigns to the
file. -/
def CarImageUploadView.post (s : GalleryState) (hasFile : Bool) (size : Nat)
    (orderReq : Option Nat) (primaryReq : Option Bool) (blob : Nat) :
    GalleryState × Option GalleryError :=
  let currentCount := s.images.length
  if 10 ≤ currentCount then
    (s, some .capacityExceeded)
  else if !hasFile then
    (s, some .noFile)
  else
    let ord := orderReq.getD (currentCount + 1)
    let isP := currentCount == 0
    CarImage.saveNew s isP ord blob

/-- The loop body of CarImageBulkUploadView.post (views.py 329-340):
`current` is the image count captured before the loop, `idx` the
enumerate index; any error propagates out of the loop. -/
def CarImageBulkUploadView.loop (current : Nat) :
    List Nat → Nat → GalleryState → GalleryState × Option GalleryError
  | [], _, s => (s, none)
  | f :: rest, idx, s =>
    let isP := current == 0 && idx == 0
    let ord := current + idx + 1
    match CarImage.saveNew s isP ord f with
    | (s', none) => CarImageBulkUploadView.loop current rest (idx + 1) s'
    | (s', some e) => (s', some e)

/-- CarImageBulkUploadView.post (views.py 306-343).  The creation loop
runs inside `transaction.atomic()`: an exception rolls the created rows
back, while files already written to storage and consumed sequence
values survive the rollback. -/
def CarImageBulkUploadView.post (s : GalleryState) (files : List Nat) :
    GalleryState × Option GalleryError :=
  if files.isEmpty then
    (s, some .noFile)
  else if 10 < s.images.length + files.length then
    (s, some (.bulkCapacityExceeded files.length s.images.length))
  else
    match CarImageBulkUploadView.loop s.images.length files 0 s with
    | (s', none) => (s', none)
    | (s', some e) => ({ s' with images := s.images }, some e)

/-- CarImageDetailView.patch (views.py 354-368): resolve the image — 404
before any mutation when the id is not one of this car's images; when a
file is supplied, delete the old file from storage first
(`image.image.delete(save=False)`), then assign the new file and save —
the save writes the new file to storage and then UPDATEs the row
(`saveOk = false` models that UPDATE failing). -/
def CarImageDetailView.patch (s : GalleryState) (imageId : Nat)
    (newBlob : Option Nat) (saveOk : Bool) : GalleryState × Option GalleryError :=
  match s.images.find? (fun i => i.id == imageId) with
  | none => (s, some (.notFound imageId))
  | some img =>
    match newBlob with
    | none => (s, none)
    | some b =>
      let blobs1 := (s.blobs.erase img.blob) ++ [b]
      match CarImage.saveUpdate s.images { img with blob := b } saveOk with
      | (images', err) => ({ s with images := images', blobs := blobs1 }, err)

/-- CarImageDetailView.delete (views.py 370-380): resolve the image (404
if it does not belong to the car), then call the model's delete. -/
def CarImageDetailView.delete (s : GalleryState) (imageId : Nat) :
    GalleryState × Option GalleryError :=
  match s.images.find? (fun i => i.id == imageId) with
  | none => (s, some (.notFound imageId))
  | some img =>
    match CarImage.delete s.images img with
    | (images', err) => ({ s with images := images' }, err)

/-- CarImageSetPrimaryView.patch (views.py 389-404): resolve the image,
bulk-clear every primary row of the car, then set the flag on the
already-fetched row object and save it. -/
def CarImageSetPrimaryView.patch (s : GalleryState) (imageId : Nat) :
    GalleryState × Option GalleryError :=
  match s.images.find? (fun i => i.id == imageId) with
  | none => (s, some (.notFound imageId))
  | some img =>
    let cleared := clearAll s.images
    match CarImage.saveUpdate cleared { img with isPrimary := true } true with
    | (images', err) => ({ s with images := images' }, err)

/-- Outcome of the reorder loop: `missing` carries the rows as already
updated by the earlier iterations — the `return Response(404)` inside
`with transaction.atomic()` exits the block normally, so those updates
are committed; `failed` models an exception (IntegrityError from the
`unique_together` constraint) propagating out of the block, which rolls
every update of the batch back. -/
inductive ReorderOutcome where
  | ok (images : List Image)
  | missing (images : List Image) (id : Nat)
  | failed

/-- The per-item loop of CarImageReorderView.patch (views.py 423-436):
fetch the row by id and car, overwrite its `order`, save. -/
def CarImageReorderView.loop :
    List (Nat × Nat) → List Image → ReorderOutcome
  | [], cur => .ok cur
  | (i, o) :: rest, cur =>
    match cur.find? (fun img => img.id == i) with
    | none => .missing cur i
    | some img =>
      match CarImage.saveUpdate cur { img with order := o } true with
      | (cur', none) => CarImageReorderView.loop rest cur'
      | (_, some _) => .failed

/-- CarImageReorderView.patch (views.py 414-445), after
ImageReorderSerializer validation (an empty `image_orders` list is
rejected as invalid payload). -/
def CarImageReorderView.patch (s : GalleryState) (items : List (Nat × Nat)) :
    GalleryState × Option GalleryError :=
  if items.isEmpty then
    (s, some .invalidPayload)
  else
    match CarImageReorderView.loop items s.images with
    | .ok images' => ({ s with images := images' }, none)
    | .missing images' i => ({ s with images := images' }, some (.notFound i))
    | .failed => (s, some .integrityError)

/-- One gallery API request against the car. -/
inductive Op where
  | upload (hasFile : Bool) (size : Nat) (orderReq : Option Nat)
      (primaryReq : Option Bool) (blob : Nat)
  | bulkUpload (files : List Nat)
  | replace (imageId : Nat) (newBlob : Option Nat) (saveOk : Bool)
  | deleteImage (imageId : Nat)
  | setPrimary (imageId : Nat)
  | reorder (items : List (Nat × Nat))

/-- Dispatch one request to the corresponding view. -/
def applyOp (op : Op) (s : GalleryState) : GalleryState × Option GalleryError :=
  match op with
  | .upload hasFile size orderReq primaryReq blob =>
      CarImageUploadView.post s hasFile size orderReq primaryReq blob
  | .bulkUpload files => CarImageBulkUploadView.post s files
  | .replace imageId newBlob saveOk => CarImageDetailView.patch s imageId newBlob saveOk
  | .deleteImage imageId => CarImageDetailView.delete s imageId
  | .setPrimary imageId => CarImageSetPrimaryView.patch s imageId
  | .reorder items => CarImageReorderView.patch s items

/-- The car starts with an empty gallery. -/
def initState : GalleryState :=
  ⟨[], 1, 1, []⟩

/-- Run a sequence of completed requests. -/
def applyOps (ops : List Op) (s : GalleryState) : GalleryState :=
  ops.foldl (fun t op => (applyOp op t).1) s

/-- Number of rows of a gallery carrying `is_primary = true`. -/
def primaryCount (l : List Image) : Nat :=
  l.countP (fun i => i.isPrimary)

/-- The at-rest record-store invariant: I2 (a nonempty gallery has
exactly one primary row), primary-key uniqueness, the `unique_together`
order uniqueness, and freshness of the id sequence. -/
def GalleryInv (s : GalleryState) : Prop :=
  (s.images ≠ [] → primaryCount s.images = 1) ∧
  (s.images.map (fun i => i.id)).Nodup ∧
  (s.images.map (fun i => i.order)).Nodup ∧
  ∀ i ∈ s.images, i.id < s.nextId

instance : DecidablePred GalleryInv := fun s => by
  unfold GalleryInv primaryCount
  infer_instance

/-- A sample car with two images: the primary B (id 1, order 1, blob 11)
and C (id 2, order 2, blob 12). -/
def stateA : GalleryState :=
  ⟨[⟨1, 11, true, 1, 1⟩, ⟨2, 12, false, 2, 2⟩], 3, 3, [11, 12]⟩

/-- A sample car holding the maximum of 10 images. -/
def stateTen : GalleryState :=
  ⟨[⟨1, 21, true, 1, 1⟩, ⟨2, 22, false, 2, 2⟩, ⟨3, 23, false, 3, 3⟩,
    ⟨4, 24, false, 4, 4⟩, ⟨5, 25, false, 5, 5⟩, ⟨6, 26, false, 6, 6⟩,
    ⟨7, 27, false, 7, 7⟩, ⟨8, 28, false, 8, 8⟩, ⟨9, 29, false, 9, 9⟩,
    ⟨10, 30, false, 10, 10⟩], 11, 11, [21, 22, 23, 24, 25, 26, 27, 28, 29, 30]⟩

/-- A sample car holding 5 images. -/
def stateFive : GalleryState :=
  ⟨[⟨1, 21, true, 1, 1⟩, ⟨2, 22, false, 2, 2⟩, ⟨3, 23, false, 3, 3⟩,
    ⟨4, 24, false, 4, 4⟩, ⟨5, 25, false, 5, 5⟩], 6, 6, [21, 22, 23, 24, 25]⟩

/-! ### Basic list and record lemmas -/

theorem Image.clear_eq_self (i : Image) (h : i.isPrimary = false) :
    { i with isPrimary := false } = i := by
  cases i
  simp_all

theorem unique_primary (l : List Image) (h1 : primaryCount l = 1) (x : Image)
    (hx : x ∈ l) (hpx : x.isPrimary = true) :
    ∀ y ∈ l, y ≠ x → y.isPrimary = false := by
  induction l with
  | nil => intro y hy; simp at hy
  | cons a t ih =>
    have hsplit : (if a.isPrimary then 1 else 0) + primaryCount t = 1 := by
      unfold primaryCount at h1 ⊢
      rw [List.countP_cons] at h1
      cases hap : a.isPrimary <;> simp [hap] at h1 ⊢ <;> exact h1
    intro y hy hne
    rcases List.mem_cons.mp hx with hxa | hxt
    · subst hxa
      have hcount : primaryCount t = 0 := by
        rw [hpx] at hsplit
        simpa using hsplit
      rcases List.mem_cons.mp hy with hya | hyt
      · exact absurd hya hne
      · have := (List.countP_eq_zero.mp hcount) y hyt
        simp_all [primaryCount]
    · cases hap : a.isPrimary with
      | true =>
        exfalso
        have hcount : primaryCount t = 0 := by
          rw [hap] at hsplit
          simpa using hsplit
        have := (List.countP_eq_zero.mp hcount) x hxt
        simp_all [primaryCount]
      | false =>
        rcases List.mem_cons.mp hy with hya | hyt
        · subst hya; exact hap
        · have h1t : primaryCount t = 1 := by
            rw [hap] at hsplit
            simpa using hsplit
          exact ih h1t hxt y hyt hne

theorem id_inj_of_nodup (l : List Image) (hid : (l.map (fun i => i.id)).Nodup)
    {x y : Image} (hx : x ∈ l) (hy : y ∈ l) (h : x.id = y.id) : x = y :=
  List.inj_on_of_nodup_map hid hx hy h

theorem order_inj_of_nodup (l : List Image) (hord : (l.map (fun i => i.order)).Nodup)
    {x y : Image} (hx : x ∈ l) (hy : y ∈ l) (h : x.order = y.order) : x = y :=
  List.inj_on_of_nodup_map hord hx hy h

theorem clearAll_id_map (l : List Image) :
    (clearAll l).map (fun i => i.id) = l.map (fun i => i.id) := by
  simp [clearAll, List.map_map]

theorem clearAll_order_map (l : List Image) :
    (clearAll l).map (fun i => i.order) = l.map (fun i => i.order) := by
  simp [clearAll, List.map_map]

theorem clearAll_not_primary (l : List Image) :
    ∀ i ∈ clearAll l, i.isPrimary = false := by
  intro i hi
  rcases List.mem_map.mp hi with ⟨j, _, hj⟩
  subst hj
  rfl

theorem clearOthers_id_map (l : List Image) (k : Nat) :
    (clearOthers l k).map (fun i => i.id) = l.map (fun i => i.id) := by
  unfold clearOthers
  rw [List.map_map]
  apply List.map_congr_left
  intro a _
  by_cases h : a.id == k <;> simp [Function.comp, h]

theorem clearOthers_order_map (l : List Image) (k : Nat) :
    (clearOthers l k).map (fun i => i.order) = l.map (fun i => i.order) := by
  unfold clearOthers
  rw [List.map_map]
  apply List.map_congr_left
  intro a _
  by_cases h : a.id == k <;> simp [Function.comp, h]

theorem updateRow_id_map (l : List Image) (img : Image) :
    (updateRow l img).map (fun i => i.id) = l.map (fun i => i.id) := by
  unfold updateRow
  rw [List.map_map]
  apply List.map_congr_left
  intro a _
  by_cases h : a.id = img.id
  · simp [Function.comp, h]
  · simp [Function.comp, h]

theorem clearOthers_eq_self (l : List Image) (x : Image) (hx : x ∈ l)
    (hxp : x.isPrimary = true) (h1 : primaryCount l = 1) :
    clearOthers l x.id = l := by
  unfold clearOthers
  conv_rhs => rw [← List.map_id' l]
  apply List.map_congr_left
  intro i hi
  by_cases h : i.id = x.id
  · simp [h]
  · have hne : i ≠ x := by
      intro he
      subst he
      simp at h
    have hip : i.isPrimary = false := unique_primary l h1 x hx hxp i hi hne
    simp [h, Image.clear_eq_self i hip]

theorem orderTaken_false_iff (l : List Image) (selfId ord : Nat) :
    orderTaken l selfId ord = false ↔ ∀ i ∈ l, i.id ≠ selfId → i.order ≠ ord := by
  unfold orderTaken
  constructor
  · intro h i hi hne hord
    have := List.any_eq_false.mp h i hi
    simp [hne, hord] at this
  · intro h
    apply List.any_eq_false.mpr
    intro i hi
    by_cases hne : i.id = selfId
    · simp [hne]
    · simp [hne, h i hi hne]

theorem filter_by_id (l : List Image) (x : Image) (hx : x ∈ l)
    (hid : (l.map (fun i => i.id)).Nodup) :
    l.filter (fun i => i.id == x.id) = [x] := by
  induction l with
  | nil => simp at hx
  | cons a t ih =>
    rw [List.map_cons, List.nodup_cons] at hid
    rcases List.mem_cons.mp hx with hxa | hxt
    · subst hxa
      have ht : t.filter (fun i => i.id == x.id) = [] := by
        apply List.filter_eq_nil_iff.mpr
        intro i hi hbeq
        have heq : i.id = x.id := by simpa using hbeq
        exact hid.1 (List.mem_map.mpr ⟨i, hi, heq⟩)
      simp [List.filter_cons, ht]
    · have hne : a.id ≠ x.id := by
        intro he
        exact hid.1 (he ▸ List.mem_map.mpr ⟨x, hxt, rfl⟩)
      simp [List.filter_cons, hne, ih hxt hid.2]

theorem find_by_id (l : List Image) (x : Image) (hx : x ∈ l)
    (hid : (l.map (fun i => i.id)).Nodup) :
    l.find? (fun i => i.id == x.id) = some x := by
  induction l with
  | nil => simp at hx
  | cons a t ih =>
    rw [List.map_cons, List.nodup_cons] at hid
    rcases List.mem_cons.mp hx with hxa | hxt
    · subst hxa
      exact List.find?_cons_of_pos t (by simp)
    · have hne : a.id ≠ x.id := by
        intro he
        exact hid.1 (he ▸ List.mem_map.mpr ⟨x, hxt, rfl⟩)
      rw [List.find?_cons_of_neg t (by simpa using hne)]
      exact ih hxt hid.2

theorem countP_id_eq_one (l : List Image) (x : Image) (hx : x ∈ l)
    (hid : (l.map (fun i => i.id)).Nodup) :
    l.countP (fun i => i.id == x.id) = 1 := by
  rw [List.countP_eq_length_filter, filter_by_id l x hx hid]
  rfl

theorem updateRow_map_congr {β : Type} (l : List Image) (row : Image) (g : Image → β)
    (h : ∀ i ∈ l, i.id = row.id → g row = g i) :
    (updateRow l row).map g = l.map g := by
  unfold updateRow
  rw [List.map_map]
  apply List.map_congr_left
  intro i hi
  by_cases hie : i.id = row.id
  · simp [Function.comp, hie, h i hi hie]
  · simp [Function.comp, hie]

theorem updateRow_mem_of_ne (l : List Image) (row : Image) (j : Image)
    (hj : j ∈ l) (hne : j.id ≠ row.id) : j ∈ updateRow l row := by
  unfold updateRow
  refine List.mem_map.mpr ⟨j, hj, ?_⟩
  simp [hne]

theorem updateRow_primaryCount (l : List Image) (row : Image)
    (h : ∀ i ∈ l, i.id = row.id → i.isPrimary = row.isPrimary) :
    primaryCount (updateRow l row) = primaryCount l := by
  unfold primaryCount updateRow
  rw [List.countP_map]
  apply List.countP_congr
  intro i hi
  by_cases hie : i.id = row.id
  · simp [Function.comp, hie, h i hi hie]
  · simp [Function.comp, hie]

theorem updateRow_orders_nodup (l : List Image) (row : Image)
    (hid : (l.map (fun i => i.id)).Nodup)
    (hord : (l.map (fun i => i.order)).Nodup)
    (hconf : ∀ i ∈ l, i.id ≠ row.id → i.order ≠ row.order) :
    ((updateRow l row).map (fun i => i.order)).Nodup := by
  induction l with
  | nil => simp [updateRow]
  | cons a t ih =>
    rw [List.map_cons, List.nodup_cons] at hid hord
    have hstep : updateRow (a :: t) row
        = (if a.id == row.id then row else a) :: updateRow t row := by
      simp [updateRow]
    by_cases ha : a.id = row.id
    · have htail : (updateRow t row).map (fun i => i.order) = t.map (fun i => i.order) := by
        apply updateRow_map_congr
        intro i hi hie
        exact absurd (List.mem_map.mpr ⟨i, hi, by rw [hie, ← ha]⟩) hid.1
      rw [hstep, if_pos (by simpa using ha), List.map_cons, htail, List.nodup_cons]
      refine ⟨?_, hord.2⟩
      intro hmem
      rcases List.mem_map.mp hmem with ⟨i, hi, hio⟩
      have hine : i.id ≠ row.id := by
        intro he
        exact hid.1 (List.mem_map.mpr ⟨i, hi, by rw [he, ← ha]⟩)
      exact hconf i (List.mem_cons_of_mem a hi) hine hio
    · have hconft : ∀ i ∈ t, i.id ≠ row.id → i.order ≠ row.order :=
        fun i hi => hconf i (List.mem_cons_of_mem a hi)
      rw [hstep, if_neg (by simpa using ha), List.map_cons, List.nodup_cons]
      refine ⟨?_, ih hid.2 hord.2 hconft⟩
      intro hmem
      rcases List.mem_map.mp hmem with ⟨b, hb, hbord⟩
      rcases List.mem_map.mp hb with ⟨i, hi, hif⟩
      by_cases hie : i.id = row.id
      · have hbrow : b = row := by rw [← hif]; simp [hie]
        subst hbrow
        exact absurd hbord.symm (hconf a (List.mem_cons_self a t) ha)
      · have hbi : b = i := by rw [← hif]; simp [hie]
        subst hbi
        exact hord.1 (List.mem_map.mpr ⟨b, hi, hbord⟩)

theorem updateRow_clearOthers (l : List Image) (row : Image) :
    updateRow (clearOthers l row.id) row
      = l.map (fun i => if i.id == row.id then row else { i with isPrimary := false }) := by
  unfold updateRow clearOthers
  rw [List.map_map]
  apply List.map_congr_left
  intro i _
  by_cases h : i.id = row.id
  · simp [Function.comp, h]
  · simp [Function.comp, h]

theorem primaryCount_promoted (l : List Image) (row : Image) (k : Nat)
    (hrp : row.isPrimary = true) :
    primaryCount (l.map (fun i => if i.id == k then row else { i with isPrimary := false }))
      = l.countP (fun i => i.id == k) := by
  unfold primaryCount
  rw [List.countP_map]
  apply List.countP_congr
  intro i _
  by_cases h : i.id = k
  · simp [Function.comp, h, hrp]
  · simp [Function.comp, h]

theorem promoted_id_map (l : List Image) (row : Image) (k : Nat) (hk : row.id = k) :
    (l.map (fun i => if i.id == k then row else { i with isPrimary := false })).map
        (fun i => i.id)
      = l.map (fun i => i.id) := by
  rw [List.map_map]
  apply List.map_congr_left
  intro i _
  by_cases hie : i.id = k
  · simp [Function.comp, hie, hk]
  · simp [Function.comp, hie]

theorem promoted_order_map (l : List Image) (row : Image) (k : Nat)
    (h : ∀ i ∈ l, i.id = k → i.order = row.order) :
    (l.map (fun i => if i.id == k then row else { i with isPrimary := false })).map
        (fun i => i.order)
      = l.map (fun i => i.order) := by
  rw [List.map_map]
  apply List.map_congr_left
  intro i hi
  by_cases hie : i.id = k
  · simp [Function.comp, hie, (h i hi hie).symm]
  · simp [Function.comp, hie]

theorem promoted_mem_id (l : List Image) (row : Image) (k : Nat) (hk : row.id = k)
    (j : Image)
    (hj : j ∈ l.map (fun i => if i.id == k then row else { i with isPrimary := false })) :
    ∃ i ∈ l, j.id = i.id := by
  rcases List.mem_map.mp hj with ⟨i, hi, hij⟩
  refine ⟨i, hi, ?_⟩
  rw [← hij]
  by_cases hie : i.id = k
  · simp [hie, hk]
  · simp [hie]

theorem firstStep_cases (m i : Image) :
    firstStep (some m) i = some m ∨ firstStep (some m) i = some i := by
  unfold firstStep
  by_cases h : Image.keyLt i m = true <;> simp [h]

theorem foldl_firstStep_some (t : List Image) (m : Image) :
    ∃ n, t.foldl firstStep (some m) = some n ∧ (n = m ∨ n ∈ t) := by
  induction t generalizing m with
  | nil => exact ⟨m, rfl, Or.inl rfl⟩
  | cons a t ih =>
    rw [List.foldl_cons]
    rcases firstStep_cases m a with h | h
    · rw [h]
      rcases ih m with ⟨n, hn, hm⟩
      exact ⟨n, hn, hm.imp id (List.mem_cons_of_mem a)⟩
    · rw [h]
      rcases ih a with ⟨n, hn, hm⟩
      refine ⟨n, hn, ?_⟩
      rcases hm with hm | hm
      · exact Or.inr (hm ▸ List.mem_cons_self a t)
      · exact Or.inr (List.mem_cons_of_mem a hm)

theorem firstByDefault_cons (x : Image) (t : List Image) :
    ∃ n, firstByDefault (x :: t) = some n ∧ n ∈ x :: t := by
  unfold firstByDefault
  rw [List.foldl_cons]
  show ∃ n, t.foldl firstStep (firstStep none x) = some n ∧ n ∈ x :: t
  have : firstStep none x = some x := rfl
  rw [this]
  rcases foldl_firstStep_some t x with ⟨n, hn, hm⟩
  refine ⟨n, hn, ?_⟩
  rcases hm with hm | hm
  · exact hm ▸ List.mem_cons_self x t
  · exact List.mem_cons_of_mem x hm

theorem firstByDefault_mem (l : List Image) (n : Image)
    (h : firstByDefault l = some n) : n ∈ l := by
  cases l with
  | nil => simp [firstByDefault] at h
  | cons x t =>
    rcases firstByDefault_cons x t with ⟨m, hm, hmem⟩
    rw [h] at hm
    cases hm
    exact hmem

theorem firstByDefault_none (l : List Image)
    (h : firstByDefault l = none) : l = [] := by
  cases l with
  | nil => rfl
  | cons x t =>
    rcases firstByDefault_cons x t with ⟨m, hm, _⟩
    rw [h] at hm
    cases hm

/-- A completed save of a row whose id, order and primary flag match a
stored row: under the invariant the clearing UPDATE is a no-op and,
when the UPDATE goes through, it only replaces that row. -/
theorem saveUpdate_frame (l : List Image) (img row : Image) (saveOk : Bool)
    (hmem : img ∈ l)
    (h1 : l ≠ [] → primaryCount l = 1)
    (hid : (l.map (fun i => i.id)).Nodup)
    (hord : (l.map (fun i => i.order)).Nodup)
    (hrid : row.id = img.id) (hror : row.order = img.order)
    (hrp : row.isPrimary = img.isPrimary) :
    ((CarImage.saveUpdate l row saveOk).1.map (fun i => i.id) = l.map (fun i => i.id)) ∧
    ((CarImage.saveUpdate l row saveOk).1.map (fun i => i.order) = l.map (fun i => i.order)) ∧
    ((CarImage.saveUpdate l row saveOk).1.map (fun i => i.isPrimary) = l.map (fun i => i.isPrimary)) ∧
    (∀ j ∈ l, j.id ≠ img.id → j ∈ (CarImage.saveUpdate l row saveOk).1) := by
  have himages1 : (if row.isPrimary then clearOthers l row.id else l) = l := by
    cases hp : row.isPrimary
    · simp
    · have himgp : img.isPrimary = true := by rw [← hrp, hp]
      rw [if_pos rfl, hrid]
      exact clearOthers_eq_self l img hmem himgp (h1 (List.ne_nil_of_mem hmem))
  have hconf : orderTaken l row.id row.order = false := by
    apply (orderTaken_false_iff l row.id row.order).mpr
    intro i hi hine hiord
    have : i = img := order_inj_of_nodup l hord hi hmem (by rw [hiord, hror])
    exact hine (by rw [this, hrid])
  have hval : CarImage.saveUpdate l row saveOk = CarImage.saveUpdateRest l row saveOk := by
    unfold CarImage.saveUpdate
    rw [himages1]
  rw [hval]
  unfold CarImage.saveUpdateRest
  cases saveOk
  · simp
    exact fun j hj _ => hj
  · rw [hconf]
    simp only [Bool.not_true, Bool.false_eq_true, if_false]
    refine ⟨?_, ?_, ?_, ?_⟩
    · apply updateRow_map_congr
      intro i hi hie
      have : i = img := id_inj_of_nodup l hid hi hmem (by rw [hie, hrid])
      rw [this, hrid]
    · apply updateRow_map_congr
      intro i hi hie
      have : i = img := id_inj_of_nodup l hid hi hmem (by rw [hie, hrid])
      rw [this, hror]
    · apply updateRow_map_congr
      intro i hi hie
      have : i = img := id_inj_of_nodup l hid hi hmem (by rw [hie, hrid])
      rw [this, hrp]
    · intro j hj hjne
      apply updateRow_mem_of_ne l row j hj
      rw [hrid]
      exact hjne

/-- A completed save that promotes a row to primary (SetPrimary's save and
the promotion-on-delete): the clearing UPDATE clears every other row and
the row UPDATE overwrites the matching row, provided some stored row
carries the saved row's id and order (so the constraint is satisfied). -/
theorem saveUpdate_promote (l : List Image) (row : Image)
    (hrp : row.isPrimary = true)
    (hord : (l.map (fun i => i.order)).Nodup)
    (y : Image) (hy : y ∈ l) (hyid : y.id = row.id) (hyord : y.order = row.order) :
    CarImage.saveUpdate l row true
      = (l.map (fun i => if i.id == row.id then row else { i with isPrimary := false }), none) := by
  have hconf : orderTaken (clearOthers l row.id) row.id row.order = false := by
    apply (orderTaken_false_iff _ row.id row.order).mpr
    intro i hi hine hiord
    rcases List.mem_map.mp hi with ⟨j, hj, hji⟩
    have hjid : j.id = i.id := by
      rw [← hji]
      by_cases h : j.id = row.id <;> simp [h]
    have hjord : j.order = i.order := by
      rw [← hji]
      by_cases h : j.id = row.id <;> simp [h]
    have : j = y := order_inj_of_nodup l hord hj hy (by rw [hjord, hiord, hyord])
    exact hine (by rw [← hjid, this, hyid])
  unfold CarImage.saveUpdate CarImage.saveUpdateRest
  rw [if_pos hrp, hconf]
  simp only [Bool.not_true, Bool.false_eq_true, if_false]
  rw [updateRow_clearOthers]

theorem saveNew_first (s : GalleryState) (isPrimaryReq : Bool) (orderReq blob : Nat)
    (hemp : s.images = []) :
    CarImage.saveNew s isPrimaryReq orderReq blob
      = ({ images := [⟨s.nextId, blob, true, 1, s.nextTime⟩],
           nextId := s.nextId + 1, nextTime := s.nextTime + 1,
           blobs := s.blobs ++ [blob] }, none) := by
  simp [CarImage.saveNew, hemp, clearAll]

theorem saveNew_later (s : GalleryState) (orderReq blob : Nat)
    (hne : s.images ≠ []) :
    CarImage.saveNew s false orderReq blob
      = (if 10 ≤ s.images.length then
           ({ s with images := s.images }, some (.valueError s.images.length))
         else if s.images.any (fun i => i.order == orderReq) then
           ({ s with images := s.images, blobs := s.blobs ++ [blob] }, some .integrityError)
         else
           ({ images := s.images ++ [⟨s.nextId, blob, false, orderReq, s.nextTime⟩],
              nextId := s.nextId + 1, nextTime := s.nextTime + 1,
              blobs := s.blobs ++ [blob] }, none)) := by
  have hfirst : s.images.isEmpty = false := by
    simpa using hne
  simp [CarImage.saveNew, hfirst]

theorem saveNew_inv (s : GalleryState) (isPrimaryReq : Bool) (orderReq blob : Nat)
    (h : GalleryInv s) (hp : isPrimaryReq = true → s.images = []) :
    GalleryInv (CarImage.saveNew s isPrimaryReq orderReq blob).1 ∧
    s.nextId ≤ (CarImage.saveNew s isPrimaryReq orderReq blob).1.nextId := by
  by_cases hemp : s.images = []
  · rw [saveNew_first s isPrimaryReq orderReq blob hemp]
    refine ⟨⟨?_, ?_, ?_, ?_⟩, ?_⟩
    · intro _
      simp [primaryCount]
    · simp
    · simp
    · intro i hi
      rcases List.mem_singleton.mp hi with rfl
      simp
    · simp
  · have hreq : isPrimaryReq = false := by
      cases hval : isPrimaryReq
      · rfl
      · exact absurd (hp hval) hemp
    subst hreq
    rw [saveNew_later s orderReq blob hemp]
    rcases h with ⟨h1, hid, hord, hfresh⟩
    by_cases hcap : 10 ≤ s.images.length
    · rw [if_pos hcap]
      exact ⟨⟨h1, hid, hord, hfresh⟩, Nat.le_refl _⟩
    · rw [if_neg hcap]
      by_cases hconf : s.images.any (fun i => i.order == orderReq) = true
      · rw [if_pos hconf]
        exact ⟨⟨h1, hid, hord, hfresh⟩, Nat.le_refl _⟩
      · rw [if_neg (by simpa using hconf)]
        have hconf' : ∀ i ∈ s.images, i.order ≠ orderReq := by
          intro i hi he
          exact hconf (List.any_eq_true.mpr ⟨i, hi, by simpa using he⟩)
        refine ⟨⟨?_, ?_, ?_, ?_⟩, by simp⟩
        · intro _
          unfold primaryCount
          rw [List.countP_append]
          have : primaryCount s.images = 1 := h1 hemp
          unfold primaryCount at this
          simp [this]
        · rw [List.map_append, List.nodup_append]
          refine ⟨hid, by simp, ?_⟩
          intro a ha hb
          simp at hb
          subst hb
          rcases List.mem_map.mp ha with ⟨i, hi, hia⟩
          have hlt := hfresh i hi
          rw [hia] at hlt
          exact Nat.lt_irrefl _ hlt
        · rw [List.map_append, List.nodup_append]
          refine ⟨hord, by simp, ?_⟩
          intro a ha hb
          simp at hb
          rcases List.mem_map.mp ha with ⟨i, hi, hia⟩
          exact hconf' i hi (by rw [hia, hb])
        · intro i hi
          rcases List.mem_append.mp hi with hi | hi
          · exact Nat.lt_succ_of_lt (hfresh i hi)
          · rcases List.mem_singleton.mp hi with rfl
            simp

theorem upload_inv (s : GalleryState) (hasFile : Bool) (size : Nat)
    (orderReq : Option Nat) (primaryReq : Option Bool) (blob : Nat)
    (h : GalleryInv s) :
    GalleryInv (CarImageUploadView.post s hasFile size orderReq primaryReq blob).1 ∧
    s.nextId ≤ (CarImageUploadView.post s hasFile size orderReq primaryReq blob).1.nextId := by
  unfold CarImageUploadView.post
  by_cases hcap : 10 ≤ s.images.length
  · simp only [if_pos hcap]
    exact ⟨h, Nat.le_refl _⟩
  · simp only [if_neg hcap]
    cases hasFile
    · simp only [Bool.not_false, if_pos]
      exact ⟨h, Nat.le_refl _⟩
    · simp only [Bool.not_true, Bool.false_eq_true, if_false]
      apply saveNew_inv _ _ _ _ h
      intro hz
      have : s.images.length = 0 := by simpa using hz
      exact List.length_eq_zero.mp this

theorem bulkLoop_inv (files : List Nat) (current idx : Nat) (s : GalleryState)
    (h : GalleryInv s) (hp : current = 0 → idx = 0 → s.images = []) :
    GalleryInv (CarImageBulkUploadView.loop current files idx s).1 ∧
    s.nextId ≤ (CarImageBulkUploadView.loop current files idx s).1.nextId := by
  induction files generalizing idx s with
  | nil => exact ⟨h, Nat.le_refl _⟩
  | cons f rest ih =>
    have hp' : (current == 0 && idx == 0) = true → s.images = [] := by
      intro hb
      simp at hb
      exact hp hb.1 hb.2
    rcases saveNew_inv s (current == 0 && idx == 0) (current + idx + 1) f h hp'
      with ⟨hinv', hle'⟩
    unfold CarImageBulkUploadView.loop
    rcases hsave : CarImage.saveNew s (current == 0 && idx == 0) (current + idx + 1) f
      with ⟨s', err⟩
    rw [hsave] at hinv' hle'
    simp only [hsave]
    cases err with
    | none =>
      rcases ih (idx + 1) s' hinv' (fun _ h1 => absurd h1 (Nat.succ_ne_zero idx)) with ⟨ha, hb⟩
      exact ⟨ha, Nat.le_trans hle' hb⟩
    | some e =>
      exact ⟨hinv', hle'⟩

theorem bulk_inv (s : GalleryState) (files : List Nat) (h : GalleryInv s) :
    GalleryInv (CarImageBulkUploadView.post s files).1 := by
  unfold CarImageBulkUploadView.post
  by_cases hempf : files.isEmpty
  · simp only [if_pos hempf]
    exact h
  · simp only [if_neg hempf]
    by_cases hcap : 10 < s.images.length + files.length
    · simp only [if_pos hcap]
      exact h
    · simp only [if_neg hcap]
      have hp : s.images.length = 0 → 0 = 0 → s.images = [] := by
        intro hz _
        exact List.length_eq_zero.mp hz
      rcases bulkLoop_inv files s.images.length 0 s h hp with ⟨hinv', hle'⟩
      rcases hloop : CarImageBulkUploadView.loop s.images.length files 0 s with ⟨s', err⟩
      rw [hloop] at hinv' hle'
      cases err with
      | none => exact hinv'
      | some e =>
        rcases h with ⟨h1, hid, hord, hfresh⟩
        exact ⟨h1, hid, hord, fun i hi => Nat.lt_of_lt_of_le (hfresh i hi) hle'⟩

theorem reorderLoop_frame (items : List (Nat × Nat)) (cur : List Image)
    (h1 : cur ≠ [] → primaryCount cur = 1)
    (hid : (cur.map (fun i => i.id)).Nodup)
    (hord : (cur.map (fun i => i.order)).Nodup) :
    (∀ l, CarImageReorderView.loop items cur = .ok l →
        l.map (fun i => (i.id, i.isPrimary)) = cur.map (fun i => (i.id, i.isPrimary)) ∧
        (l.map (fun i => i.order)).Nodup) ∧
    (∀ l k, CarImageReorderView.loop items cur = .missing l k →
        l.map (fun i => (i.id, i.isPrimary)) = cur.map (fun i => (i.id, i.isPrimary)) ∧
        (l.map (fun i => i.order)).Nodup) := by
  induction items generalizing cur with
  | nil =>
    constructor
    · intro l hl
      unfold CarImageReorderView.loop at hl
      cases hl
      exact ⟨rfl, hord⟩
    · intro l k hl
      unfold CarImageReorderView.loop at hl
      exact ReorderOutcome.noConfusion hl
  | cons p rest ih =>
    obtain ⟨pi, po⟩ := p
    cases hfind : cur.find? (fun img => img.id == pi) with
    | none =>
      have hloop : CarImageReorderView.loop ((pi, po) :: rest) cur = .missing cur pi := by
        unfold CarImageReorderView.loop
        rw [hfind]
      constructor
      · intro l hl
        rw [hloop] at hl
        exact ReorderOutcome.noConfusion hl
      · intro l k hl
        rw [hloop] at hl
        injection hl with h1' h2'
        subst h1'
        exact ⟨rfl, hord⟩
    | some img =>
      have hmem : img ∈ cur := List.mem_of_find?_eq_some hfind
      have himages1 :
          (if ({ img with order := po } : Image).isPrimary
            then clearOthers cur ({ img with order := po } : Image).id else cur) = cur := by
        show (if img.isPrimary then clearOthers cur img.id else cur) = cur
        cases hpim : img.isPrimary
        · simp
        · rw [if_pos rfl]
          exact clearOthers_eq_self cur img hmem hpim (h1 (List.ne_nil_of_mem hmem))
      have hval : CarImage.saveUpdate cur { img with order := po } true
          = CarImage.saveUpdateRest cur { img with order := po } true := by
        unfold CarImage.saveUpdate
        rw [himages1]
      by_cases hconf : orderTaken cur img.id po = true
      · have hloop : CarImageReorderView.loop ((pi, po) :: rest) cur = .failed := by
          unfold CarImageReorderView.loop
          rw [hfind]
          show (match CarImage.saveUpdate cur { img with order := po } true with
                | (cur', none) => CarImageReorderView.loop rest cur'
                | (_, some _) => ReorderOutcome.failed) = ReorderOutcome.failed
          rw [hval]
          unfold CarImage.saveUpdateRest
          show (match (if orderTaken cur img.id po then
                         (cur, some GalleryError.integrityError)
                       else (updateRow cur { img with order := po }, none)) with
                | (cur', none) => CarImageReorderView.loop rest cur'
                | (_, some _) => ReorderOutcome.failed) = ReorderOutcome.failed
          rw [if_pos hconf]
        constructor
        · intro l hl
          rw [hloop] at hl
          exact ReorderOutcome.noConfusion hl
        · intro l k hl
          rw [hloop] at hl
          exact ReorderOutcome.noConfusion hl
      · have hconf' : ∀ i ∈ cur, i.id ≠ img.id → i.order ≠ po := by
          have := (orderTaken_false_iff cur img.id po).mp (by simpa using hconf)
          exact this
        have hloop : CarImageReorderView.loop ((pi, po) :: rest) cur
            = CarImageReorderView.loop rest (updateRow cur { img with order := po }) := by
          conv_lhs => unfold CarImageReorderView.loop
          rw [hfind]
          show (match CarImage.saveUpdate cur { img with order := po } true with
                | (cur', none) => CarImageReorderView.loop rest cur'
                | (_, some _) => ReorderOutcome.failed)
              = CarImageReorderView.loop rest (updateRow cur { img with order := po })
          rw [hval]
          unfold CarImage.saveUpdateRest
          show (match (if orderTaken cur img.id po then
                         (cur, some GalleryError.integrityError)
                       else (updateRow cur { img with order := po }, none)) with
                | (cur', none) => CarImageReorderView.loop rest cur'
                | (_, some _) => ReorderOutcome.failed)
              = CarImageReorderView.loop rest (updateRow cur { img with order := po })
          rw [if_neg hconf]
        set cur' := updateRow cur { img with order := po } with hcur'
        have hpair : cur'.map (fun i => (i.id, i.isPrimary))
            = cur.map (fun i => (i.id, i.isPrimary)) := by
          apply updateRow_map_congr
          intro i hi hie
          have : i = img := id_inj_of_nodup cur hid hi hmem hie
          rw [this]
        have hid' : (cur'.map (fun i => i.id)).Nodup := by
          rw [updateRow_id_map]
          exact hid
        have hord' : (cur'.map (fun i => i.order)).Nodup := by
          apply updateRow_orders_nodup cur _ hid hord
          intro i hi hie
          exact hconf' i hi hie
        have h1' : cur' ≠ [] → primaryCount cur' = 1 := by
          intro hne
          have hcount : primaryCount cur' = primaryCount cur := by
            apply updateRow_primaryCount
            intro i hi hie
            have : i = img := id_inj_of_nodup cur hid hi hmem hie
            rw [this]
          rw [hcount]
          apply h1
          intro hc
          rw [hcur', hc] at hne
          exact hne rfl
        rcases ih cur' h1' hid' hord' with ⟨ihok, ihmiss⟩
        constructor
        · intro l hl
          rw [hloop] at hl
          rcases ihok l hl with ⟨hm, hn⟩
          exact ⟨hm.trans hpair, hn⟩
        · intro l k hl
          rw [hloop] at hl
          rcases ihmiss l k hl with ⟨hm, hn⟩
          exact ⟨hm.trans hpair, hn⟩

theorem id_map_of_pair_map (l m : List Image)
    (h : l.map (fun i => (i.id, i.isPrimary)) = m.map (fun i => (i.id, i.isPrimary))) :
    l.map (fun i => i.id) = m.map (fun i => i.id) := by
  have := congrArg (List.map Prod.fst) h
  simpa [List.map_map, Function.comp] using this

theorem primaryCount_of_pair_map (l m : List Image)
    (h : l.map (fun i => (i.id, i.isPrimary)) = m.map (fun i => (i.id, i.isPrimary))) :
    primaryCount l = primaryCount m := by
  have := congrArg (List.countP (fun x : Nat × Bool => x.2)) h
  simpa [List.countP_map, Function.comp, primaryCount] using this

theorem length_of_pair_map (l m : List Image)
    (h : l.map (fun i => (i.id, i.isPrimary)) = m.map (fun i => (i.id, i.isPrimary))) :
    l.length = m.length := by
  have := congrArg List.length h
  simpa using this

theorem reorder_frame (s : GalleryState) (items : List (Nat × Nat)) (h : GalleryInv s) :
    (CarImageReorderView.patch s items).1.images.map (fun i => (i.id, i.isPrimary))
        = s.images.map (fun i => (i.id, i.isPrimary)) ∧
    ((CarImageReorderView.patch s items).1.images.map (fun i => i.order)).Nodup ∧
    (CarImageReorderView.patch s items).1.nextId = s.nextId ∧
    (CarImageReorderView.patch s items).1.blobs = s.blobs := by
  rcases h with ⟨h1, hid, hord, _⟩
  unfold CarImageReorderView.patch
  by_cases hempt : items.isEmpty
  · simp only [if_pos hempt]
    exact ⟨by trivial, hord, by trivial, by trivial⟩
  · simp only [if_neg hempt]
    rcases reorderLoop_frame items s.images h1 hid hord with ⟨ihok, ihmiss⟩
    cases hloop : CarImageReorderView.loop items s.images with
    | ok l =>
      simp only [hloop]
      rcases ihok l hloop with ⟨hm, hn⟩
      exact ⟨hm, hn, by trivial, by trivial⟩
    | missing l k =>
      simp only [hloop]
      rcases ihmiss l k hloop with ⟨hm, hn⟩
      exact ⟨hm, hn, by trivial, by trivial⟩
    | failed =>
      simp only [hloop]
      exact ⟨by trivial, hord, by trivial, by trivial⟩

theorem reorder_inv (s : GalleryState) (items : List (Nat × Nat)) (h : GalleryInv s) :
    GalleryInv (CarImageReorderView.patch s items).1 := by
  rcases reorder_frame s items h with ⟨hpair, hnodup, hnid, _⟩
  rcases h with ⟨h1, hid, hord, hfresh⟩
  refine ⟨?_, ?_, hnodup, ?_⟩
  · intro hne
    rw [primaryCount_of_pair_map _ _ hpair]
    apply h1
    intro hc
    apply hne
    have := length_of_pair_map _ _ hpair
    rw [hc] at this
    exact List.eq_nil_of_length_eq_zero (by simpa using this)
  · rw [id_map_of_pair_map _ _ hpair]
    exact hid
  · intro i hi
    have hiid : i.id ∈ (CarImageReorderView.patch s items).1.images.map (fun i => i.id) :=
      List.mem_map.mpr ⟨i, hi, rfl⟩
    rw [id_map_of_pair_map _ _ hpair] at hiid
    rcases List.mem_map.mp hiid with ⟨j, hj, hji⟩
    rw [hnid, ← hji]
    exact hfresh j hj

theorem setPrimary_found (s : GalleryState) (imageId : Nat) (img : Image)
    (hfind : s.images.find? (fun i => i.id == imageId) = some img)
    (h : GalleryInv s) :
    CarImageSetPrimaryView.patch s imageId
      = ({ s with images := s.images.map (fun i =>
            if i.id == img.id then { img with isPrimary := true }
            else { i with isPrimary := false }) }, none) := by
  have hmem : img ∈ s.images := List.mem_of_find?_eq_some hfind
  have hsave : CarImage.saveUpdate (clearAll s.images) { img with isPrimary := true } true
      = ((clearAll s.images).map (fun i =>
          if i.id == ({ img with isPrimary := true } : Image).id
          then { img with isPrimary := true } else { i with isPrimary := false }), none) := by
    apply saveUpdate_promote
    · rfl
    · rw [clearAll_order_map]
      exact h.2.2.1
    · exact List.mem_map.mpr ⟨img, hmem, rfl⟩
    · rfl
    · rfl
  unfold CarImageSetPrimaryView.patch
  rw [hfind]
  show ({ s with images := (CarImage.saveUpdate (clearAll s.images)
            { img with isPrimary := true } true).1 },
        (CarImage.saveUpdate (clearAll s.images) { img with isPrimary := true } true).2)
      = _
  rw [hsave]
  have hmaps : (clearAll s.images).map (fun i =>
        if i.id == ({ img with isPrimary := true } : Image).id
        then { img with isPrimary := true } else { i with isPrimary := false })
      = s.images.map (fun i =>
          if i.id == img.id then { img with isPrimary := true }
          else { i with isPrimary := false }) := by
    unfold clearAll
    rw [List.map_map]
    apply List.map_congr_left
    intro i _
    by_cases hie : i.id = img.id
    · simp [Function.comp, hie]
    · simp [Function.comp, hie]
  rw [hmaps]

theorem promoted_inv (s : GalleryState) (h : GalleryInv s) (row : Image) (k : Nat)
    (hrp : row.isPrimary = true) (hk : row.id = k)
    (x : Image) (hx : x ∈ s.images) (hxid : x.id = k) (hxord : x.order = row.order) :
    GalleryInv { s with images := s.images.map (fun i =>
        if i.id == k then row else { i with isPrimary := false }) } := by
  rcases h with ⟨_, hid, hord, hfresh⟩
  refine ⟨?_, ?_, ?_, ?_⟩
  · intro _
    show primaryCount _ = 1
    rw [primaryCount_promoted s.images row k hrp]
    rw [← hxid]
    exact countP_id_eq_one s.images x hx hid
  · show ((s.images.map (fun i => if i.id == k then row else { i with isPrimary := false })).map
        (fun i => i.id)).Nodup
    rw [promoted_id_map s.images row k hk]
    exact hid
  · show ((s.images.map (fun i => if i.id == k then row else { i with isPrimary := false })).map
        (fun i => i.order)).Nodup
    rw [promoted_order_map s.images row k]
    · exact hord
    · intro i hi hie
      have : i = x := id_inj_of_nodup s.images hid hi hx (by rw [hie, hxid])
      rw [this, hxord]
  · intro j hj
    rcases promoted_mem_id s.images row k hk j hj with ⟨i, hi, hji⟩
    rw [hji]
    exact hfresh i hi

theorem setPrimary_inv (s : GalleryState) (imageId : Nat) (h : GalleryInv s) :
    GalleryInv (CarImageSetPrimaryView.patch s imageId).1 := by
  cases hfind : s.images.find? (fun i => i.id == imageId) with
  | none =>
    unfold CarImageSetPrimaryView.patch
    rw [hfind]
    exact h
  | some img =>
    rw [setPrimary_found s imageId img hfind h]
    exact promoted_inv s h { img with isPrimary := true } img.id rfl rfl
      img (List.mem_of_find?_eq_some hfind) rfl rfl

theorem primaryCount_of_primary_map (l m : List Image)
    (h : l.map (fun i => i.isPrimary) = m.map (fun i => i.isPrimary)) :
    primaryCount l = primaryCount m := by
  have := congrArg (List.countP (fun b : Bool => b)) h
  simpa [List.countP_map, Function.comp, primaryCount] using this

theorem mem_id_of_id_map (l m : List Image)
    (h : l.map (fun i => i.id) = m.map (fun i => i.id))
    (j : Image) (hj : j ∈ l) : ∃ i ∈ m, j.id = i.id := by
  have : j.id ∈ m.map (fun i => i.id) := by
    rw [← h]
    exact List.mem_map.mpr ⟨j, hj, rfl⟩
  rcases List.mem_map.mp this with ⟨i, hi, hii⟩
  exact ⟨i, hi, hii.symm⟩

theorem filter_map_eq_of (l : List Image) (f : Image → Image)
    (p : Image → Bool) (q : Image → Bool)
    (hpt : ∀ i ∈ l, p (f i) = q i) :
    (l.map f).filter p = (l.filter q).map f := by
  rw [List.filter_map]
  congr 1
  apply List.filter_congr
  intro i hi
  exact hpt i hi

theorem delete_nonprimary (images : List Image) (img : Image)
    (hprim : img.isPrimary = false) :
    CarImage.delete images img = (images.filter (fun i => i.id != img.id), none) := by
  unfold CarImage.delete
  rw [if_neg (by simp [hprim])]

theorem delete_primary_last (images : List Image) (img : Image)
    (hprim : img.isPrimary = true)
    (hn : firstByDefault (images.filter (fun i => i.id != img.id)) = none) :
    CarImage.delete images img = (images.filter (fun i => i.id != img.id), none) := by
  unfold CarImage.delete
  rw [if_pos hprim, hn]

theorem delete_primary_some (s : GalleryState) (img : Image) (h : GalleryInv s)
    (hprim : img.isPrimary = true)
    (n : Image) (hn : firstByDefault (s.images.filter (fun i => i.id != img.id)) = some n) :
    CarImage.delete s.images img
      = ((s.images.map (fun i => if i.id == n.id then { n with isPrimary := true }
            else { i with isPrimary := false })).filter (fun i => i.id != img.id), none) := by
  have hnmem : n ∈ s.images :=
    List.mem_of_mem_filter (firstByDefault_mem _ n hn)
  have hsave : CarImage.saveUpdate s.images { n with isPrimary := true } true
      = (s.images.map (fun i =>
          if i.id == ({ n with isPrimary := true } : Image).id
          then { n with isPrimary := true } else { i with isPrimary := false }), none) := by
    apply saveUpdate_promote
    · rfl
    · exact h.2.2.1
    · exact hnmem
    · rfl
    · rfl
  unfold CarImage.delete
  rw [if_pos hprim, hn]
  show (match CarImage.saveUpdate s.images { n with isPrimary := true } true with
        | (images', none) => (images'.filter (fun i : Image => i.id != img.id), none)
        | (images', some e) => (images', some e))
      = _
  rw [hsave]

theorem delete_primary_filter (s : GalleryState) (img : Image) (h : GalleryInv s)
    (hmem : img ∈ s.images) (hprim : img.isPrimary = true)
    (n : Image) (hn : firstByDefault (s.images.filter (fun i => i.id != img.id)) = some n) :
    ((CarImage.delete s.images img).1).filter (fun i => i.isPrimary)
      = [{ n with isPrimary := true }] ∧ n.id ≠ img.id := by
  have hnfil := firstByDefault_mem _ n hn
  have hnmem : n ∈ s.images := List.mem_of_mem_filter hnfil
  have hnid : n.id ≠ img.id := by
    have := (List.mem_filter.mp hnfil).2
    simpa using this
  rw [delete_primary_some s img h hprim n hn]
  refine ⟨?_, hnid⟩
  have hstep := filter_map_eq_of s.images
      (fun i => if i.id == n.id then { n with isPrimary := true }
        else { i with isPrimary := false })
      (fun a => a.isPrimary && (a.id != img.id))
      (fun i => i.id == n.id)
      (by
        intro i hi
        by_cases hie : i.id = n.id
        · simp [hie, hnid]
        · simp [hie])
  simp only [List.filter_filter]
  rw [hstep, filter_by_id s.images n hnmem h.2.1]
  simp

theorem delete_inv (s : GalleryState) (imageId : Nat) (h : GalleryInv s) :
    GalleryInv (CarImageDetailView.delete s imageId).1 := by
  cases hfind : s.images.find? (fun i => i.id == imageId) with
  | none =>
    unfold CarImageDetailView.delete
    rw [hfind]
    exact h
  | some img =>
    have hmem : img ∈ s.images := List.mem_of_find?_eq_some hfind
    have hview : CarImageDetailView.delete s imageId
        = ({ s with images := (CarImage.delete s.images img).1 },
           (CarImage.delete s.images img).2) := by
      unfold CarImageDetailView.delete
      rw [hfind]
    rw [hview]
    rcases h with ⟨h1, hid, hord, hfresh⟩
    cases hprim : img.isPrimary with
    | false =>
      rw [delete_nonprimary s.images img hprim]
      refine ⟨?_, ?_, ?_, ?_⟩
      · intro hne
        show primaryCount (s.images.filter (fun i => i.id != img.id)) = 1
        have hcount : primaryCount (s.images.filter (fun i => i.id != img.id))
            = primaryCount s.images := by
          unfold primaryCount
          rw [List.countP_filter]
          apply List.countP_congr
          intro i hi
          cases hip : i.isPrimary
          · simp [hip]
          · have hine : i.id ≠ img.id := by
              intro he
              have : i = img := id_inj_of_nodup s.images hid hi hmem he
              rw [this] at hip
              rw [hprim] at hip
              exact Bool.false_ne_true hip
            simp [hip, hine]
        rw [hcount]
        exact h1 (List.ne_nil_of_mem hmem)
      · exact List.Nodup.sublist (List.Sublist.map _ (List.filter_sublist _)) hid
      · exact List.Nodup.sublist (List.Sublist.map _ (List.filter_sublist _)) hord
      · intro i hi
        exact hfresh i (List.mem_of_mem_filter hi)
    | true =>
      cases hfb : firstByDefault (s.images.filter (fun i => i.id != img.id)) with
      | none =>
        rw [delete_primary_last s.images img hprim hfb]
        have hempty : s.images.filter (fun i => i.id != img.id) = [] :=
          firstByDefault_none _ hfb
        rw [hempty]
        refine ⟨fun hne => absurd rfl hne, by simp, by simp, by simp⟩
      | some n =>
        have hchr := delete_primary_some s img ⟨h1, hid, hord, hfresh⟩ hprim n hfb
        have hfil := delete_primary_filter s img ⟨h1, hid, hord, hfresh⟩ hmem hprim n hfb
        rw [hchr] at hfil
        rw [hchr]
        refine ⟨?_, ?_, ?_, ?_⟩
        · intro _
          show primaryCount _ = 1
          unfold primaryCount
          rw [List.countP_eq_length_filter, hfil.1]
          rfl
        · apply List.Nodup.sublist (List.Sublist.map _ (List.filter_sublist _))
          rw [promoted_id_map s.images { n with isPrimary := true } n.id rfl]
          exact hid
        · apply List.Nodup.sublist (List.Sublist.map _ (List.filter_sublist _))
          rw [promoted_order_map s.images { n with isPrimary := true } n.id]
          · exact hord
          · intro i hi hie
            have hnmem : n ∈ s.images :=
              List.mem_of_mem_filter (firstByDefault_mem _ n hfb)
            have : i = n := id_inj_of_nodup s.images hid hi hnmem hie
            rw [this]
        · intro j hj
          have hj' := List.mem_of_mem_filter hj
          rcases promoted_mem_id s.images { n with isPrimary := true } n.id rfl j hj'
            with ⟨i, hi, hji⟩
          rw [hji]
          exact hfresh i hi

theorem replace_found (s : GalleryState) (imageId : Nat) (img : Image)
    (hfind : s.images.find? (fun i => i.id == imageId) = some img) (b : Nat) (saveOk : Bool) :
    CarImageDetailView.patch s imageId (some b) saveOk
      = ({ s with
            images := (CarImage.saveUpdate s.images { img with blob := b } saveOk).1,
            blobs := (s.blobs.erase img.blob) ++ [b] },
          (CarImage.saveUpdate s.images { img with blob := b } saveOk).2) := by
  unfold CarImageDetailView.patch
  rw [hfind]

theorem replace_inv (s : GalleryState) (imageId : Nat) (newBlob : Option Nat)
    (saveOk : Bool) (h : GalleryInv s) :
    GalleryInv (CarImageDetailView.patch s imageId newBlob saveOk).1 := by
  cases hfind : s.images.find? (fun i => i.id == imageId) with
  | none =>
    unfold CarImageDetailView.patch
    rw [hfind]
    exact h
  | some img =>
    cases newBlob with
    | none =>
      unfold CarImageDetailView.patch
      rw [hfind]
      exact h
    | some b =>
      rw [replace_found s imageId img hfind b saveOk]
      have hmem : img ∈ s.images := List.mem_of_find?_eq_some hfind
      rcases saveUpdate_frame s.images img { img with blob := b } saveOk hmem
          h.1 h.2.1 h.2.2.1 rfl rfl rfl with ⟨hidm, hordm, hpm, _⟩
      rcases h with ⟨h1, hid, hord, hfresh⟩
      refine ⟨?_, ?_, ?_, ?_⟩
      · intro _
        show primaryCount _ = 1
        rw [primaryCount_of_primary_map _ _ hpm]
        exact h1 (List.ne_nil_of_mem hmem)
      · show ((CarImage.saveUpdate s.images { img with blob := b } saveOk).1.map
            (fun i => i.id)).Nodup
        rw [hidm]
        exact hid
      · show ((CarImage.saveUpdate s.images { img with blob := b } saveOk).1.map
            (fun i => i.order)).Nodup
        rw [hordm]
        exact hord
      · intro j hj
        rcases mem_id_of_id_map _ _ hidm j hj with ⟨i, hi, hji⟩
        show j.id < s.nextId
        rw [hji]
        exact hfresh i hi

/-- Every completed request preserves the store invariant. -/
theorem applyOp_inv (op : Op) (s : GalleryState) (h : GalleryInv s) :
    GalleryInv (applyOp op s).1 := by
  cases op with
  | upload hasFile size orderReq primaryReq blob =>
    exact (upload_inv s hasFile size orderReq primaryReq blob h).1
  | bulkUpload files => exact bulk_inv s files h
  | replace imageId newBlob saveOk => exact replace_inv s imageId newBlob saveOk h
  | deleteImage imageId => exact delete_inv s imageId h
  | setPrimary imageId => exact setPrimary_inv s imageId h
  | reorder items => exact reorder_inv s items h

theorem initState_inv : GalleryInv initState := by
  refine ⟨fun hne => absurd rfl hne, by simp [initState], by simp [initState], ?_⟩
  intro i hi
  simp [initState] at hi

theorem applyOps_inv (ops : List Op) (s : GalleryState) (h : GalleryInv s) :
    GalleryInv (applyOps ops s) := by
  induction ops generalizing s with
  | nil => exact h
  | cons op rest ih =>
    unfold applyOps
    rw [List.foldl_cons]
    exact ih (applyOp op s).1 (applyOp_inv op s h)

theorem bulkLoop_head (files : List Nat) (idx : Nat) (s : GalleryState)
    (first : Image)
    (hlen : s.images.length = idx) (hpos : 1 ≤ idx)
    (hords : ∀ i ∈ s.images, i.order ≤ idx)
    (hhead : s.images.head? = some first)
    (htot : idx + files.length ≤ 10) :
    (CarImageBulkUploadView.loop 0 files idx s).2 = none ∧
    (CarImageBulkUploadView.loop 0 files idx s).1.images.head? = some first := by
  induction files generalizing idx s with
  | nil => exact ⟨rfl, hhead⟩
  | cons f rest ih =>
    have hne : s.images ≠ [] := by
      intro hc
      rw [hc] at hlen
      simp at hlen
      omega
    have hisP : (((0:Nat) == 0) && (idx == 0)) = false := by
      have hidx : idx ≠ 0 := by omega
      simp [hidx]
    have hcapn : ¬ 10 ≤ s.images.length := by
      rw [hlen]
      simp at htot
      omega
    have hconf : (s.images.any (fun i => i.order == 0 + idx + 1)) = false := by
      apply List.any_eq_false.mpr
      intro i hi
      have := hords i hi
      simp
      omega
    unfold CarImageBulkUploadView.loop
    simp only [hisP]
    rw [saveNew_later s (0 + idx + 1) f hne]
    rw [if_neg hcapn, if_neg (by rw [hconf]; exact Bool.false_ne_true)]
    refine ih (idx + 1) _ ?_ ?_ ?_ ?_ ?_
    · simp [hlen]
    · omega
    · intro i hi
      rcases List.mem_append.mp hi with hi | hi
      · exact Nat.le_succ_of_le (hords i hi)
      · rcases List.mem_singleton.mp hi with rfl
        simp
    · rw [List.head?_append, hhead]
      rfl
    · simp only [List.length_cons] at htot
      omega

/-- C1: for every state reachable from the empty gallery by a sequence of
completed gallery requests (single upload, bulk upload, replace, delete,
set-primary, reorder), if the car has at least one image then exactly one
of its images has `is_primary = true`, and if it has zero images none
do. -/
theorem c1_primary_uniqueness_reachable (ops : List Op) :
    ((applyOps ops initState).images ≠ [] →
      primaryCount (applyOps ops initState).images = 1) ∧
    ((applyOps ops initState).images = [] →
      primaryCount (applyOps ops initState).images = 0) := by
  have h := applyOps_inv ops initState initState_inv
  refine ⟨h.1, ?_⟩
  intro he
  rw [he]
  rfl

/-- C1 witness: after one upload to the fresh car the gallery is nonempty
and carries exactly one primary image. -/
theorem c1_primary_uniqueness_reachable_witness :
    (applyOps [Op.upload true 0 none none 11] initState).images ≠ [] ∧
    primaryCount (applyOps [Op.upload true 0 none none 11] initState).images = 1 :=
  ⟨by decide,
   (c1_primary_uniqueness_reachable [Op.upload true 0 none none 11]).1 (by decide)⟩

/-- C2: a single upload to a car that already holds 10 images is rejected
with the capacity error and the state is unchanged, and a bulk upload
whose batch size plus the existing count exceeds 10 is rejected outright
with the capacity error naming the batch size and the existing count,
again leaving the state unchanged. -/
theorem c2_capacity_rejection (s : GalleryState) (size : Nat) (orderReq : Option Nat)
    (primaryReq : Option Bool) (blob : Nat) (files : List Nat) :
    (10 ≤ s.images.length →
      applyOp (.upload true size orderReq primaryReq blob) s
        = (s, some .capacityExceeded)) ∧
    (files ≠ [] → 10 < s.images.length + files.length →
      applyOp (.bulkUpload files) s
        = (s, some (.bulkCapacityExceeded files.length s.images.length))) := by
  constructor
  · intro hcap
    show CarImageUploadView.post s true size orderReq primaryReq blob = _
    unfold CarImageUploadView.post
    rw [if_pos hcap]
  · intro hne hcap
    show CarImageBulkUploadView.post s files = _
    unfold CarImageBulkUploadView.post
    rw [if_neg (by simpa using hne), if_pos hcap]

/-- C2 witness: the 11th single upload on a full car fails with the
capacity error, and bulk-uploading 6 files onto 5 existing images fails
with the error naming 6 requested and 5 existing; both leave the state
unchanged. -/
theorem c2_capacity_rejection_witness :
    (10 ≤ stateTen.images.length ∧
      applyOp (.upload true 0 none none 99) stateTen
        = (stateTen, some .capacityExceeded)) ∧
    (10 < stateFive.images.length + 6 ∧
      applyOp (.bulkUpload [41, 42, 43, 44, 45, 46]) stateFive
        = (stateFive, some (.bulkCapacityExceeded 6 5))) :=
  ⟨⟨by decide, (c2_capacity_rejection stateTen 0 none none 99 []).1 (by decide)⟩,
   ⟨by decide,
    (c2_capacity_rejection stateFive 0 none none 0 [41, 42, 43, 44, 45, 46]).2
      (by decide) (by decide)⟩⟩

/-- C5: on a car with images {id 1, order 1, primary} and {id 2, order 2},
the reorder request [(1, 5), (99, 1)] fails with NotFound naming the
offending id 99, yet image 1's order has been overwritten to 5 — the
early `return` inside `transaction.atomic()` exits the block normally and
commits the updates applied before the offending id, so the batch is not
rejected atomically as the claim requires. -/
theorem c5_reorder_commits_before_notfound :
    (applyOp (.reorder [(1, 5), (99, 1)]) stateA).2 = some (.notFound 99) ∧
    (applyOp (.reorder [(1, 5), (99, 1)]) stateA).1.images.map (fun i => (i.id, i.order))
      = [(1, 5), (2, 2)] := by
  decide

/-- C6 counterexample: with B = {id 1, order 1, primary} and
C = {id 2, order 2}, the swap request [(1, 2), (2, 1)] does not succeed:
the first UPDATE collides with C's order under
`unique_together = ['car', 'order']`, the exception rolls the transaction
back, and nothing changes. -/
theorem c6_swap_rejected_counterexample :
    applyOp (.reorder [(1, 2), (2, 1)]) stateA = (stateA, some .integrityError) := by
  decide

/-- C6 (amended): the reorder view overwrites each named image's order
with no view-level uniqueness validation, but every save is still subject
to the model's `unique_together = ['car', 'order']` constraint, so a
completed reorder request never leaves two sibling images sharing an
order, and never changes any image's id or primary flag. -/
theorem c6_reorder_order_constraint (s : GalleryState) (h : GalleryInv s)
    (items : List (Nat × Nat)) :
    (applyOp (.reorder items) s).1.images.map (fun i => (i.id, i.isPrimary))
        = s.images.map (fun i => (i.id, i.isPrimary)) ∧
    ((applyOp (.reorder items) s).1.images.map (fun i => i.order)).Nodup :=
  ⟨(reorder_frame s items h).1, (reorder_frame s items h).2.1⟩

/-- C6 witness: a legal reorder on the two-image car keeps ids and primary
flags and leaves the order values pairwise distinct. -/
theorem c6_reorder_order_constraint_witness :
    GalleryInv stateA ∧
    ((applyOp (.reorder [(1, 3), (2, 1)]) stateA).1.images.map (fun i => (i.id, i.isPrimary))
        = stateA.images.map (fun i => (i.id, i.isPrimary)) ∧
      ((applyOp (.reorder [(1, 3), (2, 1)]) stateA).1.images.map (fun i => i.order)).Nodup) :=
  ⟨by decide, c6_reorder_order_constraint stateA (by decide) [(1, 3), (2, 1)]⟩

/-- C7 counterexample: replacing image 1's content on the two-image car
with the record UPDATE failing returns a store failure, and the old
blob 11 is no longer in the blob store — it was deleted before the new
content was durably stored, losing data on failure. -/
theorem c7_old_blob_lost_counterexample :
    (applyOp (.replace 1 (some 99) false) stateA).2 = some .storeFailure ∧
    ¬ 11 ∈ (applyOp (.replace 1 (some 99) false) stateA).1.blobs := by
  decide

/-- C7 (amended): CarImageDetailView.patch releases the old blob before
the new blob is stored and the record updated: whenever the image
resolves and a new file is supplied, the resulting blob store is the old
store with the old blob erased and the new blob appended, whether or not
the record UPDATE succeeds — on failure the old blob is already gone. -/
theorem c7_blob_release_order (s : GalleryState) (imageId : Nat) (img : Image)
    (hfind : s.images.find? (fun i => i.id == imageId) = some img)
    (b : Nat) (saveOk : Bool) :
    (applyOp (.replace imageId (some b) saveOk) s).1.blobs
      = (s.blobs.erase img.blob) ++ [b] := by
  show (CarImageDetailView.patch s imageId (some b) saveOk).1.blobs = _
  rw [replace_found s imageId img hfind b saveOk]

/-- C7 witness: on the two-image car, replacing image 1's content with a
failing UPDATE leaves the blob store as the old store minus blob 11 plus
the new blob. -/
theorem c7_blob_release_order_witness :
    stateA.images.find? (fun i => i.id == 1) = some ⟨1, 11, true, 1, 1⟩ ∧
    (applyOp (.replace 1 (some 99) false) stateA).1.blobs
      = (stateA.blobs.erase 11) ++ [99] :=
  ⟨by decide, c7_blob_release_order stateA 1 ⟨1, 11, true, 1, 1⟩ (by decide) 99 false⟩

/-- C9 counterexample: uploading a file of 6 MB to the fresh car succeeds:
the request is not rejected, an image record is created and the blob is
stored — no size validation runs on the upload path. -/
theorem c9_oversize_accepted_counterexample :
    (applyOp (.upload true (6 * 1024 * 1024) none none 42) initState).2 = none ∧
    (applyOp (.upload true (6 * 1024 * 1024) none none 42) initState).1.images.length = 1 ∧
    42 ∈ (applyOp (.upload true (6 * 1024 * 1024) none none 42) initState).1.blobs := by
  decide

/-- C9 (amended): ImageUploadSerializer.validate would reject any file
over 5 MB, but no upload view invokes that serializer: the single-upload
view's outcome is identical for any two file sizes, so oversized uploads
are not rejected. -/
theorem c9_size_check_unwired (s : GalleryState) (size size' : Nat)
    (orderReq : Option Nat) (primaryReq : Option Bool) (blob : Nat) :
    ImageUploadSerializer.validate (5 * 1024 * 1024 + 1) = false ∧
    applyOp (.upload true size orderReq primaryReq blob) s
      = applyOp (.upload true size' orderReq primaryReq blob) s :=
  ⟨by decide, rfl⟩

/-- C3: creating the very first image of a car (image count 0 at call
time) — by single upload or as the head of a bulk upload — yields an
image with `is_primary = true` and `order = 1`, whatever order or primary
values the caller asked for, and the request succeeds. -/
theorem c3_first_image_forced (s : GalleryState) (hemp : s.images = [])
    (size : Nat) (orderReq : Option Nat) (primaryReq : Option Bool) (blob : Nat)
    (files : List Nat) :
    ((applyOp (.upload true size orderReq primaryReq blob) s).1.images
        = [⟨s.nextId, blob, true, 1, s.nextTime⟩] ∧
      (applyOp (.upload true size orderReq primaryReq blob) s).2 = none) ∧
    (∀ f rest, files = f :: rest → files.length ≤ 10 →
      (applyOp (.bulkUpload files) s).1.images.head?
          = some ⟨s.nextId, f, true, 1, s.nextTime⟩ ∧
      (applyOp (.bulkUpload files) s).2 = none) := by
  have hlen0 : s.images.length = 0 := by
    rw [hemp]
    rfl
  constructor
  · have hpost : applyOp (.upload true size orderReq primaryReq blob) s
        = CarImage.saveNew s (s.images.length == 0)
            (orderReq.getD (s.images.length + 1)) blob := by
      show CarImageUploadView.post s true size orderReq primaryReq blob = _
      unfold CarImageUploadView.post
      rw [if_neg (by rw [hlen0]; simp), if_neg (by simp)]
    rw [hpost, saveNew_first s _ _ blob hemp]
    exact ⟨rfl, rfl⟩
  · intro f rest hfiles htot
    subst hfiles
    show (CarImageBulkUploadView.post s (f :: rest)).1.images.head? = _ ∧
      (CarImageBulkUploadView.post s (f :: rest)).2 = none
    unfold CarImageBulkUploadView.post
    rw [if_neg (by simp), if_neg (by rw [hlen0]; omega), hlen0]
    have hloopstep : CarImageBulkUploadView.loop 0 (f :: rest) 0 s
        = CarImageBulkUploadView.loop 0 rest 1
            { images := [⟨s.nextId, f, true, 1, s.nextTime⟩],
              nextId := s.nextId + 1, nextTime := s.nextTime + 1,
              blobs := s.blobs ++ [f] } := by
      conv_lhs => unfold CarImageBulkUploadView.loop
      simp only [saveNew_first s (((0:Nat) == 0) && ((0:Nat) == 0)) (0 + 0 + 1) f hemp,
        Nat.zero_add]
    rw [hloopstep]
    rcases bulkLoop_head rest 1
        { images := [⟨s.nextId, f, true, 1, s.nextTime⟩],
          nextId := s.nextId + 1, nextTime := s.nextTime + 1,
          blobs := s.blobs ++ [f] }
        ⟨s.nextId, f, true, 1, s.nextTime⟩
        (by simp) (by omega)
        (by
          intro i hi
          rcases List.mem_singleton.mp hi with rfl
          simp)
        rfl
        (by simp at htot ⊢; omega) with ⟨h2, h1⟩
    rcases hloop : CarImageBulkUploadView.loop 0 rest 1
        { images := [⟨s.nextId, f, true, 1, s.nextTime⟩],
          nextId := s.nextId + 1, nextTime := s.nextTime + 1,
          blobs := s.blobs ++ [f] } with ⟨s'', err⟩
    rw [hloop] at h2 h1
    simp at h2
    subst h2
    exact ⟨h1, rfl⟩

/-- C3 witness: on the fresh car, a single upload requesting order 7 (and
a primary flag of false) still creates the image with primary true and
order 1, and a two-file bulk upload makes its first image primary with
order 1. -/
theorem c3_first_image_forced_witness :
    initState.images = [] ∧
    (applyOp (.upload true 0 (some 7) (some false) 42) initState).1.images
      = [⟨1, 42, true, 1, 1⟩] ∧
    (applyOp (.bulkUpload [21, 22]) initState).1.images.head? = some ⟨1, 21, true, 1, 1⟩ :=
  ⟨rfl,
   (c3_first_image_forced initState rfl 0 (some 7) (some false) 42 []).1.1,
   ((c3_first_image_forced initState rfl 0 none none 0 [21, 22]).2 21 [22] rfl
      (by decide)).1⟩

/-- C4: deleting the current primary image while at least one other image
remains results in exactly one different surviving image being primary —
the first remaining sibling under the default ordering (primary first,
then order ascending, then upload time) — and deleting it with no
sibling left leaves zero images, hence zero primary images. -/
theorem c4_delete_primary_promotion (s : GalleryState) (h : GalleryInv s)
    (img : Image) (hmem : img ∈ s.images) (hprim : img.isPrimary = true) :
    (∀ n, firstByDefault (s.images.filter (fun i => i.id != img.id)) = some n →
      (applyOp (.deleteImage img.id) s).1.images.filter (fun i => i.isPrimary)
          = [{ n with isPrimary := true }] ∧ n.id ≠ img.id) ∧
    (s.images.filter (fun i => i.id != img.id) = [] →
      (applyOp (.deleteImage img.id) s).1.images = []) := by
  have hfind : s.images.find? (fun i => i.id == img.id) = some img :=
    find_by_id s.images img hmem h.2.1
  have hview : applyOp (.deleteImage img.id) s
      = ({ s with images := (CarImage.delete s.images img).1 },
         (CarImage.delete s.images img).2) := by
    show CarImageDetailView.delete s img.id = _
    unfold CarImageDetailView.delete
    rw [hfind]
  constructor
  · intro n hn
    rw [hview]
    exact delete_primary_filter s img h hmem hprim n hn
  · intro hsib
    rw [hview]
    show (CarImage.delete s.images img).1 = []
    rw [delete_primary_last s.images img hprim (by rw [hsib]; rfl)]
    exact hsib

/-- C4 witness: deleting the primary image 1 of the two-image car promotes
exactly the sibling image 2. -/
theorem c4_delete_primary_promotion_witness :
    GalleryInv stateA ∧ (⟨1, 11, true, 1, 1⟩ : Image) ∈ stateA.images ∧
    (applyOp (.deleteImage 1) stateA).1.images.filter (fun i => i.isPrimary)
      = [⟨2, 12, true, 2, 2⟩] :=
  ⟨by decide, by decide,
   ((c4_delete_primary_promotion stateA (by decide) ⟨1, 11, true, 1, 1⟩ (by decide) rfl).1
      ⟨2, 12, false, 2, 2⟩ (by decide)).1⟩

/-- C8: replacing an image's content changes no image's id, order or
primary flag — every sibling row is fully unchanged — and when the image
id does not belong to the car the request fails with NotFound and
mutates nothing. -/
theorem c8_replace_frame (s : GalleryState) (h : GalleryInv s) (imageId b : Nat)
    (saveOk : Bool) :
    (s.images.find? (fun i => i.id == imageId) = none →
      applyOp (.replace imageId (some b) saveOk) s = (s, some (.notFound imageId))) ∧
    (∀ img, s.images.find? (fun i => i.id == imageId) = some img →
      ((applyOp (.replace imageId (some b) saveOk) s).1.images.map (fun i => i.id)
          = s.images.map (fun i => i.id)) ∧
      ((applyOp (.replace imageId (some b) saveOk) s).1.images.map (fun i => i.order)
          = s.images.map (fun i => i.order)) ∧
      ((applyOp (.replace imageId (some b) saveOk) s).1.images.map (fun i => i.isPrimary)
          = s.images.map (fun i => i.isPrimary)) ∧
      (∀ j ∈ s.images, j.id ≠ imageId →
        j ∈ (applyOp (.replace imageId (some b) saveOk) s).1.images)) := by
  constructor
  · intro hfind
    show CarImageDetailView.patch s imageId (some b) saveOk = _
    unfold CarImageDetailView.patch
    rw [hfind]
  · intro img hfind
    have hmem : img ∈ s.images := List.mem_of_find?_eq_some hfind
    have himgid : img.id = imageId := by
      have := List.find?_some hfind
      simpa using this
    have hview : applyOp (.replace imageId (some b) saveOk) s
        = ({ s with
              images := (CarImage.saveUpdate s.images { img with blob := b } saveOk).1,
              blobs := (s.blobs.erase img.blob) ++ [b] },
            (CarImage.saveUpdate s.images { img with blob := b } saveOk).2) :=
      replace_found s imageId img hfind b saveOk
    rcases saveUpdate_frame s.images img { img with blob := b } saveOk hmem h.1 h.2.1
        h.2.2.1 rfl rfl rfl with ⟨hidm, hordm, hpm, hsib⟩
    rw [hview]
    refine ⟨hidm, hordm, hpm, ?_⟩
    intro j hj hjne
    exact hsib j hj (by rw [himgid]; exact hjne)

/-- C8 witness: on the two-image car, replacing image 1's content keeps
every id unchanged, and replacing a nonexistent image 7 fails with
NotFound and leaves the state untouched. -/
theorem c8_replace_frame_witness :
    GalleryInv stateA ∧
    stateA.images.find? (fun i => i.id == 1) = some ⟨1, 11, true, 1, 1⟩ ∧
    ((applyOp (.replace 1 (some 99) true) stateA).1.images.map (fun i => i.id)
        = stateA.images.map (fun i => i.id)) ∧
    applyOp (.replace 7 (some 99) true) stateA = (stateA, some (.notFound 7)) :=
  ⟨by decide, by decide,
   ((c8_replace_frame stateA (by decide) 1 99 true).2 ⟨1, 11, true, 1, 1⟩ (by decide)).1,
   (c8_replace_frame stateA (by decide) 7 99 true).1 (by decide)⟩

/-- C10: the single-upload view never reads a caller-supplied primary
flag — its outcome is identical under any two requested flags — and a
successful upload to a car that already has at least one image appends a
non-primary image (primary is decided solely by the pre-call count being
zero). -/
theorem c10_primary_flag_ignored (s : GalleryState) (size : Nat) (orderReq : Option Nat)
    (primaryReq primaryReq' : Option Bool) (blob : Nat) :
    (applyOp (.upload true size orderReq primaryReq blob) s
      = applyOp (.upload true size orderReq primaryReq' blob) s) ∧
    (s.images ≠ [] →
      (applyOp (.upload true size orderReq primaryReq blob) s).2 = none →
      (applyOp (.upload true size orderReq primaryReq blob) s).1.images
        = s.images ++ [⟨s.nextId, blob, false,
            orderReq.getD (s.images.length + 1), s.nextTime⟩]) := by
  refine ⟨rfl, ?_⟩
  intro hne hsucc
  by_cases hcap : 10 ≤ s.images.length
  · rw [(c2_capacity_rejection s size orderReq primaryReq blob []).1 hcap] at hsucc
    simp at hsucc
  · have hpost : applyOp (.upload true size orderReq primaryReq blob) s
        = CarImage.saveNew s (s.images.length == 0)
            (orderReq.getD (s.images.length + 1)) blob := by
      show CarImageUploadView.post s true size orderReq primaryReq blob = _
      unfold CarImageUploadView.post
      rw [if_neg hcap, if_neg (by simp)]
    have hz : (s.images.length == 0) = false := by
      simp [List.length_eq_zero]
      exact hne
    rw [hpost, hz, saveNew_later s _ blob hne, if_neg hcap] at hsucc ⊢
    by_cases hconf :
        (s.images.any (fun i => i.order == orderReq.getD (s.images.length + 1))) = true
    · rw [if_pos hconf] at hsucc
      simp at hsucc
    · rw [if_neg hconf]

/-- C10 witness: uploading to the two-image car with a requested primary
flag of true succeeds and still appends a non-primary image with the
defaulted order 3. -/
theorem c10_primary_flag_ignored_witness :
    stateA.images ≠ [] ∧
    (applyOp (.upload true 0 none (some true) 77) stateA).2 = none ∧
    (applyOp (.upload true 0 none (some true) 77) stateA).1.images
      = stateA.images ++ [⟨3, 77, false, 3, 3⟩] :=
  ⟨by decide, by decide,
   (c10_primary_flag_ignored stateA 0 none (some true) (some false) 77).2
     (by decide) (by decide)⟩
